import Mathlib

/-!
Verification of the `dyn_struct` library: a fixed-size header followed by a
dynamically-sized tail in one allocation.

Shallow embedding of `src/lib.rs` and `src/dyn_arg.rs`.

Modelling conventions:
* Byte memory is `Mem := Nat → Nat` (address to byte value); addresses and sizes are `Nat`
  (the Rust code never wraps: `Layout::from_size_align` rejects overflowing sizes).
* A raw pointer is its address; the null pointer is address `0` (Rust's `null_mut()`).
* `ptr::copy_nonoverlapping(src, dst, n)` is a byte-by-byte copy loop (`copyBytes`); under
  its non-overlap precondition each destination byte receives the original source byte.
* Rust guarantees (`align_of_val`) that every alignment is a power of two, so a `DynArg`
  stores the exponent `alignExp` and its alignment is `2 ^ alignExp`; the same holds for
  the statically-known header type (`HeaderTy`).
* Pointer metadata (`<T as Pointee>::Metadata`) is an abstract type parameter `M`
  (a slice length, a vtable reference, or `()` for sized types); the code only copies it.
* The global allocator is a parameter `alloc : Nat → Nat → Nat` taking the requested size
  and alignment and returning a thin address, `0` (null) meaning allocation failure.
  `std::alloc::handle_alloc_error` aborts the process and never returns; `DynStruct.new`
  therefore returns `Option`, where `none` models process termination.
-/

/-- Byte memory: a total map from addresses to byte values. -/
def Mem : Type := Nat → Nat

/-- Write one byte `v` at address `a`. -/
def memWrite (a v : Nat) (mem : Mem) : Mem :=
  fun x => if x = a then v else mem x

/-- Rust's `ptr::copy_nonoverlapping(src, dst, n)`: copy `n` bytes from `src` to `dst`,
reading each byte from the pre-copy memory (the regions must not overlap, which is
the Rust function's safety precondition). -/
def copyBytes (src dst : Nat) : Nat → Mem → Mem
  | 0, mem => mem
  | n + 1, mem => memWrite (dst + n) (mem (src + n)) (copyBytes src dst n mem)

/-- Rust's `ptr.write(v)` for a value spelled out as its byte list: write the bytes of `bs`
starting at address `dst`. -/
def writeList (dst : Nat) : List Nat → Mem → Mem
  | [], mem => mem
  | b :: rest, mem => writeList (dst + 1) rest (memWrite dst b mem)

/-- Read `n` bytes starting at `src` as a list (how a field of the composite is observed). -/
def readBytes (src n : Nat) (mem : Mem) : List Nat :=
  (List.range n).map (fun i => mem (src + i))

/-- Type `DynArg<T>` from `src/dyn_arg.rs`: a pointer to a forgotten value, together with the
facts Rust attaches to the pointee at runtime: its size in bytes (`size_of_val`), the
exponent of its power-of-two alignment (`align_of_val`), and its pointer metadata of
abstract type `M`. -/
structure DynArg (M : Type) where
  ptr : Nat
  len : Nat
  alignExp : Nat
  meta : M

/-- Method `DynArg::as_ptr`. -/
def DynArg.as_ptr {M : Type} (a : DynArg M) : Nat :=
  a.ptr

/-- Method `DynArg::size` (`size_of_val` of the captured value). -/
def DynArg.size {M : Type} (a : DynArg M) : Nat :=
  a.len

/-- Method `DynArg::align` (`align_of_val` of the captured value, always a power of two). -/
def DynArg.align {M : Type} (a : DynArg M) : Nat :=
  2 ^ a.alignExp

/-- Method `DynArg::metadata` (`ptr::metadata` of the captured pointer). -/
def DynArg.metadata {M : Type} (a : DynArg M) : M :=
  a.meta

/-- Method `DynArg::write_into(dst)`: `ptr::copy_nonoverlapping(self.0, dst, self.size())`. -/
def DynArg.write_into {M : Type} (a : DynArg M) (dst : Nat) (mem : Mem) : Mem :=
  copyBytes a.ptr dst a.size mem

/-- The bytes of the captured value as they sit in memory (what `dyn_arg!` captured). -/
def capturedBytes {M : Type} (a : DynArg M) (mem : Mem) : List Nat :=
  readBytes a.as_ptr a.size mem

/-- The `CoerceUnsized` impl for `DynArg`: unsizing `DynArg<T> -> DynArg<U>` keeps the
address and the pointee (hence its dynamic size and alignment) and replaces the metadata
by the unsized view's metadata `f a.meta` (e.g. attaches a slice length or a vtable). -/
def DynArg.coerce {M M2 : Type} (f : M → M2) (a : DynArg M) : DynArg M2 :=
  ⟨a.ptr, a.len, a.alignExp, f a.meta⟩

/-- The statically known layout facts of a header type `Header`:
`size_of::<Header>()` and the exponent of its power-of-two `align_of::<Header>()`. -/
structure HeaderTy where
  size : Nat
  alignExp : Nat

/-- The header type's alignment, `align_of::<Header>()`. -/
def HeaderTy.align (h : HeaderTy) : Nat :=
  2 ^ h.alignExp

/-- The padding the code inserts between header and tail, as computed inside
`DynStruct::size`: `if header % tail_align == 0 { 0 } else { tail_align - header % tail_align }`. -/
def padFor (header tail_align : Nat) : Nat :=
  if header % tail_align == 0 then 0 else tail_align - header % tail_align

/-- Function `DynStruct::size`: total size of the composite, header + padding + tail. -/
def DynStruct.size {M : Type} (hty : HeaderTy) (tail : DynArg M) : Nat :=
  let header := hty.size
  let tail_size := tail.size
  let tail_align := tail.align
  header + padFor header tail_align + tail_size

/-- Function `DynStruct::align`: `usize::max(align_of::<Header>(), tail.align())`. -/
def DynStruct.align {M : Type} (hty : HeaderTy) (tail : DynArg M) : Nat :=
  Nat.max hty.align tail.align

/-- Result of `DynStruct::new`: the returned `Box` is a fat pointer (thin address plus
metadata); we also record the memory after the writes and, to observe the interaction
with the allocator, the (size, align) request made to it, `none` when no request was made. -/
structure NewResult (M : Type) where
  thin : Nat
  meta : M
  mem : Mem
  allocReq : Option (Nat × Nat)

/-- The write phase of `DynStruct::new`: `header_ptr.write(header)` at field offset `0`,
then `tail.write_into(tail_ptr)` at the `repr(C)` offset of the unsized field,
`size_of::<Header>()` plus the alignment padding. -/
def DynStruct.writeParts {M : Type} (hty : HeaderTy) (hbytes : List Nat) (tail : DynArg M)
    (thin : Nat) (mem : Mem) : Mem :=
  let header_ptr := thin
  let tail_ptr := thin + hty.size + padFor hty.size tail.align
  tail.write_into tail_ptr (writeList header_ptr hbytes mem)

/-- Constructor `DynStruct::new(header, tail)` from `src/lib.rs`.

The header value is its byte list `hbytes` (the caller guarantees
`hbytes.length = size_of::<Header>()`). If the total size is `0` the code uses
`null_mut()` (address `0`) and does not call the allocator; otherwise it requests
`alloc size align` and calls `handle_alloc_error` (process abort, modelled as `none`)
on a null reply. The `header` field is written at offset `0` and the tail at the
`repr(C)` offset of the unsized field (`size_of::<Header>()` plus alignment padding),
header first, then `tail.write_into` (see `DynStruct.writeParts` above). -/
def DynStruct.new {M : Type} (hty : HeaderTy) (hbytes : List Nat) (tail : DynArg M)
    (alloc : Nat → Nat → Nat) (mem : Mem) : Option (NewResult M) :=
  let size := DynStruct.size hty tail
  let align := DynStruct.align hty tail
  if size = 0 then
    some ⟨0, tail.metadata, DynStruct.writeParts hty hbytes tail 0 mem, none⟩
  else
    let thin := alloc size align
    if thin = 0 then
      none
    else
      some ⟨thin, tail.metadata, DynStruct.writeParts hty hbytes tail thin mem,
            some (size, align)⟩

/-- Observing the `header` field of the built composite: the first
`size_of::<Header>()` bytes of the allocation. -/
def headerBytesOf {M : Type} (hty : HeaderTy) (res : NewResult M) : List Nat :=
  readBytes res.thin hty.size res.mem

/-- Observing the `tail` field of the built composite: `tail.size` bytes at the
`repr(C)` offset of the unsized field. -/
def tailBytesOf {M : Type} (hty : HeaderTy) (tail : DynArg M) (res : NewResult M) : List Nat :=
  readBytes (res.thin + hty.size + padFor hty.size tail.align) tail.size res.mem

/-- A `Box<DynStruct<Header, Tail>>` as a fat pointer: thin address plus metadata. -/
structure BoxPtr (M : Type) where
  thin : Nat
  meta : M

/-- Method `DynStruct::more_unsafe_transmute`: `Box::into_raw`, a bit-reinterpretation of the
fat pointer (the thin address is carried over unchanged, the metadata bits are
reinterpreted at the target metadata type, modelled by `f`), and `Box::from_raw`.
It takes and returns the memory to record that it performs no memory operation. -/
def DynStruct.more_unsafe_transmute {M M2 : Type} (f : M → M2) (b : BoxPtr M) (mem : Mem) :
    BoxPtr M2 × Mem :=
  (⟨b.thin, f b.meta⟩, mem)

/-- Method `DynStruct::transmute`: the checked variant constrains the target's metadata type to
equal `Tail`'s metadata type (so the metadata reinterpretation is the identity) and then
calls `more_unsafe_transmute`. -/
def DynStruct.transmute {M : Type} (b : BoxPtr M) (mem : Mem) : BoxPtr M × Mem :=
  DynStruct.more_unsafe_transmute id b mem

/-! Helper lemmas about the byte-memory operations. -/

theorem memWrite_self (a v : Nat) (mem : Mem) : memWrite a v mem a = v := by
  simp [memWrite]

theorem memWrite_other (a v x : Nat) (mem : Mem) (h : x ≠ a) :
    memWrite a v mem x = mem x := by
  simp [memWrite, h]

theorem copyBytes_frame (n : Nat) (src dst : Nat) (mem : Mem) (x : Nat)
    (h : x < dst ∨ dst + n ≤ x) : copyBytes src dst n mem x = mem x := by
  induction n with
  | zero => rfl
  | succ n ih =>
    have hx : x ≠ dst + n := by omega
    rw [copyBytes, memWrite_other _ _ _ _ hx]
    exact ih (by omega)

theorem copyBytes_get (n : Nat) (src dst : Nat) (mem : Mem) (i : Nat) (h : i < n) :
    copyBytes src dst n mem (dst + i) = mem (src + i) := by
  induction n with
  | zero => omega
  | succ n ih =>
    by_cases hi : i = n
    · subst hi
      rw [copyBytes, memWrite_self]
    · have hx : dst + i ≠ dst + n := by omega
      rw [copyBytes, memWrite_other _ _ _ _ hx]
      exact ih (by omega)

theorem writeList_frame (bs : List Nat) (dst : Nat) (mem : Mem) (x : Nat)
    (h : x < dst ∨ dst + bs.length ≤ x) : writeList dst bs mem x = mem x := by
  induction bs generalizing dst mem with
  | nil => rfl
  | cons b rest ih =>
    have hx : x ≠ dst := by simp at h; omega
    rw [writeList, ih _ _ (by simp at h ⊢; omega), memWrite_other _ _ _ _ hx]

theorem writeList_get (bs : List Nat) (dst : Nat) (mem : Mem) (i : Nat)
    (h : i < bs.length) : writeList dst bs mem (dst + i) = bs[i] := by
  induction bs generalizing dst mem i with
  | nil => simp at h
  | cons b rest ih =>
    cases i with
    | zero =>
      rw [Nat.add_zero, writeList, writeList_frame _ _ _ _ (Or.inl (by omega)),
        memWrite_self]
      rfl
    | succ j =>
      have : dst + (j + 1) = (dst + 1) + j := by omega
      rw [writeList, this, ih _ _ _ (by simpa using h)]
      rfl

theorem readBytes_length (src n : Nat) (mem : Mem) : (readBytes src n mem).length = n := by
  simp [readBytes]

theorem readBytes_getElem (src n : Nat) (mem : Mem) (i : Nat)
    (h : i < (readBytes src n mem).length) :
    (readBytes src n mem)[i] = mem (src + i) := by
  simp [readBytes]

/-! Helper lemmas about `DynStruct.new`. -/

/-- Elimination principle for a successful `DynStruct::new`: the fat pointer's metadata
is the tail's, the memory is the one produced by the header/tail writes at the returned
thin address, and the allocator interaction is determined by whether the total size is
zero. -/
theorem DynStruct.new_some_elim {M : Type} {hty : HeaderTy} {hbytes : List Nat}
    {tail : DynArg M} {alloc : Nat → Nat → Nat} {mem : Mem} {res : NewResult M}
    (hnew : DynStruct.new hty hbytes tail alloc mem = some res) :
    res.meta = tail.metadata ∧
    res.mem = DynStruct.writeParts hty hbytes tail res.thin mem ∧
    (DynStruct.size hty tail = 0 → res.thin = 0 ∧ res.allocReq = none) ∧
    (DynStruct.size hty tail ≠ 0 →
      res.thin = alloc (DynStruct.size hty tail) (DynStruct.align hty tail) ∧
      res.allocReq = some (DynStruct.size hty tail, DynStruct.align hty tail)) := by
  unfold DynStruct.new at hnew
  by_cases hsz : DynStruct.size hty tail = 0
  · rw [if_pos hsz] at hnew
    obtain rfl : _ = res := Option.some.inj hnew
    exact ⟨rfl, rfl, fun _ => ⟨rfl, rfl⟩, fun h => absurd hsz h⟩
  · rw [if_neg hsz] at hnew
    simp only at hnew
    by_cases hthin : alloc (DynStruct.size hty tail) (DynStruct.align hty tail) = 0
    · rw [if_pos hthin] at hnew
      exact absurd hnew (by simp)
    · rw [if_neg hthin] at hnew
      obtain rfl : _ = res := Option.some.inj hnew
      exact ⟨rfl, rfl, fun h => absurd h hsz, fun _ => ⟨rfl, rfl⟩⟩

/-- Reading back the header bytes from the written region recovers the header value. -/
theorem DynStruct.writeParts_header {M : Type} (hty : HeaderTy) (hbytes : List Nat)
    (tail : DynArg M) (thin : Nat) (mem : Mem) (hlen : hbytes.length = hty.size) :
    readBytes thin hty.size (DynStruct.writeParts hty hbytes tail thin mem) = hbytes := by
  apply List.ext_getElem
  · rw [readBytes_length, hlen]
  · intro i hi hI
    rw [readBytes_length] at hi
    rw [readBytes_getElem]
    unfold DynStruct.writeParts DynArg.write_into
    rw [copyBytes_frame _ _ _ _ _ (Or.inl (by omega)),
      writeList_get _ _ _ _ (by omega)]

/-- Reading back the tail bytes from the written region recovers the captured bytes,
provided the allocation does not overlap the captured value's region (guaranteed in the
code because the allocation is fresh). -/
theorem DynStruct.writeParts_tail {M : Type} (hty : HeaderTy) (hbytes : List Nat)
    (tail : DynArg M) (thin : Nat) (mem : Mem) (hlen : hbytes.length = hty.size)
    (hdisj : tail.as_ptr + tail.size ≤ thin ∨
      thin + DynStruct.size hty tail ≤ tail.as_ptr) :
    readBytes (thin + hty.size + padFor hty.size tail.align) tail.size
      (DynStruct.writeParts hty hbytes tail thin mem) =
      readBytes tail.as_ptr tail.size mem := by
  apply List.ext_getElem
  · rw [readBytes_length, readBytes_length]
  · intro i hi hI
    rw [readBytes_length] at hi
    rw [readBytes_getElem, readBytes_getElem]
    unfold DynStruct.writeParts DynArg.write_into
    rw [copyBytes_get _ _ _ _ _ hi]
    have hsz : DynStruct.size hty tail =
        hty.size + padFor hty.size tail.align + tail.size := rfl
    refine writeList_frame _ _ _ _ ?_
    unfold DynArg.as_ptr at hdisj
    rw [hlen]
    unfold DynArg.size at hi hdisj
    omega

theorem padFor_eq_mod (s a : Nat) (ha : 0 < a) : padFor s a = (a - s % a) % a := by
  unfold padFor
  by_cases h : s % a = 0
  · rw [if_pos (by simpa using h), h, Nat.sub_zero, Nat.mod_self]
  · rw [if_neg (by simpa using h)]
    have h1 : s % a < a := Nat.mod_lt _ ha
    exact (Nat.mod_eq_of_lt (by omega)).symm

theorem DynStruct.size_unfold {M : Type} (hty : HeaderTy) (tail : DynArg M) :
    DynStruct.size hty tail = hty.size + padFor hty.size tail.align + tail.size := rfl

/-! Concrete inputs used to instantiate the theorems below on closed terms.
The metadata type is `Nat` (e.g. a slice length). -/

/-- A concrete starting memory, byte at address `a` is `a % 256`. -/
def cMem : Mem := fun a => a % 256

/-- A concrete header type: 2 bytes, alignment `2 ^ 0 = 1`. -/
def cHty : HeaderTy := ⟨2, 0⟩

/-- A concrete captured tail: 3 bytes at address 100, alignment 1, metadata 3. -/
def cTail : DynArg Nat := ⟨100, 3, 0, 3⟩

/-- A concrete always-succeeding allocator returning the fresh address 200. -/
def cAlloc : Nat → Nat → Nat := fun _ _ => 200

/-- A concrete always-failing allocator (returns the null address). -/
def fAlloc : Nat → Nat → Nat := fun _ _ => 0

/-- The result of `DynStruct::new` on the concrete inputs above. -/
def cRes : NewResult Nat :=
  (DynStruct.new cHty [10, 11] cTail cAlloc cMem).getD ⟨0, 0, cMem, none⟩

/-- A concrete header type of size 0 and a concrete empty tail, for the zero-size case. -/
def zHty : HeaderTy := ⟨0, 0⟩

/-- A concrete zero-byte captured tail at address 50. -/
def zTail : DynArg Nat := ⟨50, 0, 0, 0⟩

/-- The result of `DynStruct::new` on the zero-size inputs. -/
def zRes : NewResult Nat :=
  (DynStruct.new zHty [] zTail cAlloc cMem).getD ⟨7, 7, cMem, none⟩

/-! The claims. -/

/-- C1: for every header value `h` (as its bytes) and captured tail `t`,
`DynStruct::new(h, capture(t))` yields a composite whose `header` field equals `h` and
whose tail bytes at offset `headerSize + padding` equal the captured value's bytes
element-wise. (The freshness of the allocation — it does not overlap the captured
value's bytes — is the hypothesis `hdisj`.) -/
theorem dynStruct_new_roundtrip {M : Type} (hty : HeaderTy) (hbytes : List Nat)
    (tail : DynArg M) (alloc : Nat → Nat → Nat) (mem : Mem) (res : NewResult M)
    (hlen : hbytes.length = hty.size)
    (hnew : DynStruct.new hty hbytes tail alloc mem = some res)
    (hdisj : tail.as_ptr + tail.size ≤ res.thin ∨
      res.thin + DynStruct.size hty tail ≤ tail.as_ptr) :
    headerBytesOf hty res = hbytes ∧ tailBytesOf hty tail res = capturedBytes tail mem := by
  obtain ⟨-, hmem, -, -⟩ := DynStruct.new_some_elim hnew
  constructor
  · rw [headerBytesOf, hmem]
    exact DynStruct.writeParts_header hty hbytes tail res.thin mem hlen
  · rw [tailBytesOf, hmem]
    exact DynStruct.writeParts_tail hty hbytes tail res.thin mem hlen hdisj

/-- Witness for C1 on the concrete inputs. -/
theorem dynStruct_new_roundtrip_witness :
    headerBytesOf cHty cRes = [10, 11] ∧
    tailBytesOf cHty cTail cRes = capturedBytes cTail cMem :=
  dynStruct_new_roundtrip cHty [10, 11] cTail cAlloc cMem cRes rfl rfl
    (Or.inl (by decide))

/-- C2: the total size computed for the composite equals
`size(Header) + (align(Tail) - size(Header) % align(Tail)) % align(Tail) + size(Tail)`;
tail alignments are powers of two by construction of the model. -/
theorem dynStruct_size_law {M : Type} (hty : HeaderTy) (tail : DynArg M) :
    DynStruct.size hty tail =
      hty.size + (tail.align - hty.size % tail.align) % tail.align + tail.size := by
  have ha : 0 < tail.align := Nat.pos_pow_of_pos _ (by omega)
  rw [DynStruct.size_unfold, padFor_eq_mod _ _ ha]

/-- C3 counterexample: at a concrete input with computed total size `0`, the code's
sentinel thin address is `0`, i.e. the null pointer (`null_mut()` in the source), not a
non-null address as the claim states. -/
theorem dynStruct_new_zero_null_counterexample :
    DynStruct.size zHty zTail = 0 ∧
    DynStruct.new zHty [] zTail cAlloc cMem = some zRes ∧
    zRes.thin = 0 :=
  ⟨rfl, rfl, rfl⟩

/-- C3 (amended): when the computed total size is zero, `DynStruct::new` does not invoke
the allocator (`allocReq = none`), returns a handle wrapping the fixed *null* thin
address `0` through which no bytes are written (the memory is returned unchanged), and
the resulting composite's tail is empty. -/
theorem dynStruct_new_zeroSize {M : Type} (hty : HeaderTy) (hbytes : List Nat)
    (tail : DynArg M) (alloc : Nat → Nat → Nat) (mem : Mem)
    (hlen : hbytes.length = hty.size)
    (hsz : DynStruct.size hty tail = 0) :
    DynStruct.new hty hbytes tail alloc mem = some ⟨0, tail.metadata, mem, none⟩ ∧
    tail.size = 0 := by
  have hexp : hty.size + padFor hty.size tail.align + tail.size = 0 := hsz
  have h1 : hty.size = 0 := by omega
  have h2 : tail.size = 0 := by omega
  have hb : hbytes = [] := List.eq_nil_of_length_eq_zero (by omega)
  refine ⟨?_, h2⟩
  simp only [DynStruct.new]
  rw [if_pos hsz, hb]
  simp only [DynStruct.writeParts, DynArg.write_into, writeList, h2, copyBytes]

/-- Witness for the amended C3 on the concrete zero-size inputs. -/
theorem dynStruct_new_zeroSize_witness :
    DynStruct.new zHty [] zTail cAlloc cMem = some ⟨0, zTail.metadata, cMem, none⟩ ∧
    zTail.size = 0 :=
  dynStruct_new_zeroSize zHty [] zTail cAlloc cMem rfl rfl

/-- C4: whenever `DynStruct::new` invokes the allocator (total size nonzero), the
alignment of the request equals `max(align_of::<Header>(), tail.align())`, both powers
of two. -/
theorem dynStruct_new_alloc_align {M : Type} (hty : HeaderTy) (hbytes : List Nat)
    (tail : DynArg M) (alloc : Nat → Nat → Nat) (mem : Mem) (res : NewResult M)
    (hnew : DynStruct.new hty hbytes tail alloc mem = some res)
    (hsz : DynStruct.size hty tail ≠ 0) :
    res.allocReq =
      some (DynStruct.size hty tail, Nat.max (2 ^ hty.alignExp) (2 ^ tail.alignExp)) := by
  obtain ⟨-, -, -, h⟩ := DynStruct.new_some_elim hnew
  exact (h hsz).2

/-- Witness for C4 on the concrete inputs. -/
theorem dynStruct_new_alloc_align_witness :
    cRes.allocReq =
      some (DynStruct.size cHty cTail, Nat.max (2 ^ cHty.alignExp) (2 ^ cTail.alignExp)) :=
  dynStruct_new_alloc_align cHty [10, 11] cTail cAlloc cMem cRes rfl (by decide)

/-- C5: the pointer metadata of the handle returned by `DynStruct::new` equals the tail
wrapper's metadata (`tail.metadata()`); the header contributes none. -/
theorem dynStruct_new_metadata {M : Type} (hty : HeaderTy) (hbytes : List Nat)
    (tail : DynArg M) (alloc : Nat → Nat → Nat) (mem : Mem) (res : NewResult M)
    (hnew : DynStruct.new hty hbytes tail alloc mem = some res) :
    res.meta = tail.metadata :=
  (DynStruct.new_some_elim hnew).1

/-- Witness for C5 on the concrete inputs. -/
theorem dynStruct_new_metadata_witness : cRes.meta = cTail.metadata :=
  dynStruct_new_metadata cHty [10, 11] cTail cAlloc cMem cRes rfl

/-- C6: `DynArg::write_into(dst)` copies exactly `size()` bytes, byte-for-byte, from the
captured address to `dst`, and mutates no other address. -/
theorem dynArg_write_into_copies {M : Type} (a : DynArg M) (dst : Nat) (mem : Mem) :
    (∀ i, i < a.size → a.write_into dst mem (dst + i) = mem (a.as_ptr + i)) ∧
    (∀ x, x < dst ∨ dst + a.size ≤ x → a.write_into dst mem x = mem x) := by
  constructor
  · intro i hi
    exact copyBytes_get _ _ _ _ _ hi
  · intro x hx
    exact copyBytes_frame _ _ _ _ _ hx

/-- Witness for C6 on the concrete inputs: byte 1 is copied, address 299 is untouched. -/
theorem dynArg_write_into_copies_witness :
    cTail.write_into 300 cMem (300 + 1) = cMem (cTail.as_ptr + 1) ∧
    cTail.write_into 300 cMem 299 = cMem 299 :=
  ⟨(dynArg_write_into_copies cTail 300 cMem).1 1 (by decide),
   (dynArg_write_into_copies cTail 300 cMem).2 299 (Or.inl (by decide))⟩

/-- C7: if the total size is nonzero and the allocator returns the null address,
`DynStruct::new` reaches `handle_alloc_error`, i.e. the process terminates (`none`); no
recoverable error value is ever returned. -/
theorem dynStruct_new_alloc_failure {M : Type} (hty : HeaderTy) (hbytes : List Nat)
    (tail : DynArg M) (alloc : Nat → Nat → Nat) (mem : Mem)
    (hsz : DynStruct.size hty tail ≠ 0)
    (hfail : alloc (DynStruct.size hty tail) (DynStruct.align hty tail) = 0) :
    DynStruct.new hty hbytes tail alloc mem = none := by
  simp only [DynStruct.new]
  rw [if_neg hsz, if_pos hfail]

/-- Witness for C7 with the concrete always-failing allocator. -/
theorem dynStruct_new_alloc_failure_witness :
    DynStruct.new cHty [10, 11] cTail fAlloc cMem = none :=
  dynStruct_new_alloc_failure cHty [10, 11] cTail fAlloc cMem (by decide) rfl

/-- C8: the `CoerceUnsized` widening of a `DynArg` preserves the captured address, size
and alignment, and consuming the widened wrapper writes the exact same bytes as
consuming the original wrapper (the resulting memories are equal functions). -/
theorem dynArg_coerce_preserves {M M2 : Type} (f : M → M2) (a : DynArg M) (dst : Nat)
    (mem : Mem) :
    (a.coerce f).as_ptr = a.as_ptr ∧ (a.coerce f).size = a.size ∧
    (a.coerce f).align = a.align ∧
    (a.coerce f).write_into dst mem = a.write_into dst mem :=
  ⟨rfl, rfl, rfl, rfl⟩

/-- C9: both `transmute` variants return a handle over the same thin allocation address
and leave every byte of memory untouched; the checked variant additionally carries the
metadata over unchanged. -/
theorem dynStruct_transmute_in_place {M M2 : Type} (f : M → M2) (b : BoxPtr M)
    (mem : Mem) :
    (DynStruct.more_unsafe_transmute f b mem).1.thin = b.thin ∧
    (DynStruct.more_unsafe_transmute f b mem).2 = mem ∧
    DynStruct.transmute b mem = (⟨b.thin, b.meta⟩, mem) :=
  ⟨rfl, rfl, rfl⟩

/-- C10: every `DynArg` alignment is at least 1 (Rust alignments are powers of two), so
the `%` in `DynStruct::size` is never a modulus by zero and the computed padding is
strictly below the tail alignment. -/
theorem dynArg_align_pos_pad_lt {M : Type} (a : DynArg M) (hsize : Nat) :
    1 ≤ a.align ∧ padFor hsize a.align < a.align := by
  have ha : 0 < a.align := Nat.pos_pow_of_pos _ (by omega)
  refine ⟨ha, ?_⟩
  unfold padFor
  by_cases h : hsize % a.align = 0
  · rw [if_pos (by simpa using h)]
    exact ha
  · rw [if_neg (by simpa using h)]
    have h1 : hsize % a.align < a.align := Nat.mod_lt _ ha
    omega
